import Mathlib

/-!
Verification development for the macro-dashboard backend.

Shallow embedding of the market-data synchronization and historical-backfill
engine. Rust f64 values are idealized as real numbers, f64 powf as Real.rpow,
timestamps as integer minute counts, and HashMap as association lists.
Fallible computations return Except; a reachable index-out-of-bounds panic is
modelled as an Except.error of Unit.
-/

namespace MacroDash

/-- Embeds HistoricalRecord from src/models.rs. -/
structure HistoricalRecord where
  year : Int
  sp500_price : ℝ
  dividend : ℝ
  dividend_yield : ℝ
  eps : ℝ
  cape : ℝ
  inflation : ℝ
  total_return : ℝ
  cumulative_return : ℝ

/-- Embeds QuarterlyData from src/models.rs. -/
structure QuarterlyData where
  quarter : String
  dividend : Option ℝ
  eps_actual : Option ℝ
  eps_estimated : Option ℝ

/-- Embeds MonthlyData (fields month, total_return as used throughout src). -/
structure MonthlyData where
  month : String
  total_return : ℝ

/-- Embeds Timestamps from src/models.rs; DateTime of Utc is idealized as an
integer minute count. -/
structure Timestamps where
  yahoo_price : Int
  ycharts_data : Int
  treasury_data : Int
  bls_data : Int

/-- Embeds MarketCache from src/models.rs; HashMap of String to f64 is
modelled as an association list. -/
structure MarketCache where
  timestamps : Timestamps
  daily_close_sp500_price : ℝ
  current_sp500_price : ℝ
  quarterly_dividends : List (String × ℝ)
  eps_actual : List (String × ℝ)
  eps_estimated : List (String × ℝ)
  current_cape : ℝ
  cape_period : String
  tips_yield_20y : ℝ
  bond_yield_20y : ℝ
  tbill_yield : ℝ
  inflation_rate : ℝ

/-- Embeds MarketMetrics from src/services/calculations.rs. -/
structure MarketMetrics where
  avg_dividend_yield : ℝ
  past_inflation_cagr : ℝ
  current_inflation_cagr : ℝ
  past_earnings_cagr : ℝ
  current_earnings_cagr : ℝ
  past_cape_cagr : ℝ
  current_cape_cagr : ℝ
  past_returns_cagr : ℝ
  current_returns_cagr : ℝ

/-- Embeds calculate_cagr from src/services/calculations.rs lines 21-26.
Rust powf on f64 is idealized as Real.rpow. -/
noncomputable def calculate_cagr (start_value end_value years : ℝ) : ℝ :=
  if start_value ≤ 0 ∨ end_value ≤ 0 ∨ years ≤ 0 then 0
  else (end_value / start_value) ^ (1 / years) - 1

/-- Embeds calculate_average from src/services/calculations.rs lines 28-33. -/
noncomputable def calculate_average (values : List ℝ) : ℝ :=
  if values = [] then 0 else values.sum / values.length

def errNoData : String := "No historical data available"

def errNoTenYear : String := "10-year historical data not available"

/-- Body of calculate_market_metrics (src/services/calculations.rs lines
35-109) applied to the already year-sorted series. The Rust code computes the
average dividend yield before the emptiness check; as both are pure this
reordering into the success branch preserves the result. -/
noncomputable def metricsOfSorted (sorted_data : List HistoricalRecord) :
    Except String MarketMetrics :=
  match sorted_data with
  | [] => Except.error errNoData
  | first :: rest =>
    match (first :: rest).find?
        (fun r => r.year == (rest.getLastD first).year - 10) with
    | none => Except.error errNoTenYear
    | some ten_year_data =>
      Except.ok
        { avg_dividend_yield := calculate_average
            (((first :: rest).filter
                (fun r => decide (0 < r.dividend_yield))).map
              (fun r => r.dividend_yield))
          past_inflation_cagr := calculate_cagr first.inflation
            (rest.getLastD first).inflation
            (((rest.getLastD first).year - first.year : ℤ) : ℝ)
          current_inflation_cagr := calculate_cagr ten_year_data.inflation
            (rest.getLastD first).inflation 10
          past_earnings_cagr := calculate_cagr first.eps
            (rest.getLastD first).eps
            (((rest.getLastD first).year - first.year : ℤ) : ℝ)
          current_earnings_cagr := calculate_cagr ten_year_data.eps
            (rest.getLastD first).eps 10
          past_cape_cagr := calculate_cagr first.cape
            (rest.getLastD first).cape
            (((rest.getLastD first).year - first.year : ℤ) : ℝ)
          current_cape_cagr := calculate_cagr ten_year_data.cape
            (rest.getLastD first).cape 10
          past_returns_cagr := calculate_cagr first.cumulative_return
            (rest.getLastD first).cumulative_return
            (((rest.getLastD first).year - first.year : ℤ) : ℝ)
          current_returns_cagr := calculate_cagr ten_year_data.cumulative_return
            (rest.getLastD first).cumulative_return 10 }

/-- Embeds calculate_market_metrics from src/services/calculations.rs:
the input is first stably sorted by year (Rust sort_by_key). -/
noncomputable def calculate_market_metrics (historical_data : List HistoricalRecord) :
    Except String MarketMetrics :=
  metricsOfSorted
    (historical_data.insertionSort (fun a b => a.year ≤ b.year))

/-- Year-sorted inputs are left unchanged by the sorting pass. -/
theorem calculate_market_metrics_of_sorted (l : List HistoricalRecord)
    (hl : List.Sorted (fun a b => a.year ≤ b.year) l) :
    calculate_market_metrics l = metricsOfSorted l := by
  unfold calculate_market_metrics
  rw [List.Sorted.insertionSort_eq hl]

/-- Decimal digit-run parser: fails on an empty run or any non-digit. -/
def parseDigits (cs : List Char) : Option Nat :=
  if !cs.isEmpty && cs.all (fun c => c.isDigit) then
    some (cs.foldl (fun acc c => acc * 10 + (c.toNat - 48)) 0)
  else none

/-- Embeds Rust str::parse::<i32> for the ASCII quarter keys: an optional
sign followed by one or more decimal digits, anything else failing. -/
def parseIntChars : List Char → Option Int
  | '-' :: rest => (parseDigits rest).map (fun n => -(n : Int))
  | '+' :: rest => (parseDigits rest).map (fun n => (n : Int))
  | cs => (parseDigits cs).map (fun n => (n : Int))

/-- Embeds the quarter-string parser of get_quarterly_calculations
(src/services/equity.rs lines 50-54): the first four characters parse as the
year, everything from index 5 on parses as the quarter number, with parse
failures defaulting to 0. Rust byte slicing is modelled by char slicing,
which agrees on these ASCII keys. -/
def parseQuarter (q : String) : Int × Int :=
  ((parseIntChars (q.toList.take 4)).getD 0,
   (parseIntChars (q.toList.drop 5)).getD 0)

/-- Lexicographic order on parsed quarter keys, as produced by the Rust
tuple comparison in the sort_by closure (src/services/equity.rs lines 49-58). -/
def quarterLE (a b : QuarterlyData) : Prop :=
  (parseQuarter a.quarter).1 < (parseQuarter b.quarter).1 ∨
    ((parseQuarter a.quarter).1 = (parseQuarter b.quarter).1 ∧
      (parseQuarter a.quarter).2 ≤ (parseQuarter b.quarter).2)

instance (a b : QuarterlyData) : Decidable (quarterLE a b) := by
  unfold quarterLE
  exact inferInstance

/-- The stable ascending sort of quarterly records performed at the top of
get_quarterly_calculations. Although the source comment says descending, the
comparator compares the key of a against the key of b and therefore sorts
ascending; every later traversal walks the list reversed. -/
def sortQuarterly (l : List QuarterlyData) : List QuarterlyData :=
  l.insertionSort quarterLE

/-- Embeds QuarterlyValue from src/services/equity.rs. -/
structure QuarterlyValue where
  final_quarter : String
  value : ℝ

/-- Embeds the TTM-dividend accumulation loop of get_quarterly_calculations
(src/services/equity.rs lines 61-87). The argument list is the reversed
sorted data, i.e. most recent quarter first; the accumulator mirrors the
quarters_found, sum and final_quarter locals, and the unwrap of
final_quarter is modelled with getD (it is only reached after the option has
been set). -/
noncomputable def ttm_loop :
    List QuarterlyData → Nat → ℝ → Option String → Option QuarterlyValue
  | [], quarters_found, sum, fq =>
    if quarters_found = 4 then some ⟨fq.getD "", sum⟩ else none
  | r :: rest, quarters_found, sum, fq =>
    match r.dividend with
    | some d =>
      if quarters_found + 1 = 4 then
        some ⟨(if quarters_found = 0 then some r.quarter else fq).getD "",
          sum + d⟩
      else
        ttm_loop rest (quarters_found + 1) (sum + d)
          (if quarters_found = 0 then some r.quarter else fq)
    | none => ttm_loop rest quarters_found sum fq

/-- The ttm_dividend result of get_quarterly_calculations. -/
noncomputable def get_ttm_dividend (records : List QuarterlyData) :
    Option QuarterlyValue :=
  ttm_loop (sortQuarterly records).reverse 0 0 none

/-- Embeds Iterator::position as used at src/services/equity.rs line 104. -/
def position (p : QuarterlyData → Bool) : List QuarterlyData → Option Nat
  | [] => none
  | q :: rest => if p q then some 0 else (position p rest).map (· + 1)

/-- Embeds the forward-EPS while loop of get_quarterly_calculations
(src/services/equity.rs lines 107-122), acting on the suffix of the sorted
list that starts at current_idx. The indexing expression
sorted_data[current_idx + 3], evaluated on the first iteration, panics in
Rust when it is out of bounds; that branch is modelled as Except.error (). -/
noncomputable def forward_loop :
    List QuarterlyData → Nat → ℝ → Option String →
      Except Unit (Option QuarterlyValue)
  | [], quarters_found, sum, fq =>
    Except.ok (if quarters_found = 4 then some ⟨fq.getD "", sum⟩ else none)
  | q :: rest, quarters_found, sum, fq =>
    if quarters_found < 4 then
      match q.eps_estimated with
      | some eps =>
        if quarters_found = 0 then
          match (q :: rest).get? 3 with
          | none => Except.error ()
          | some r3 =>
            forward_loop rest (quarters_found + 1) (sum + eps)
              (some r3.quarter)
        else forward_loop rest (quarters_found + 1) (sum + eps) fq
      | none => Except.ok none
    else
      Except.ok (if quarters_found = 4 then some ⟨fq.getD "", sum⟩ else none)

/-- The estimated_eps_sum result of get_quarterly_calculations
(src/services/equity.rs lines 98-135). -/
noncomputable def estimated_eps_sum (records : List QuarterlyData) :
    Except Unit (Option QuarterlyValue) :=
  match position (fun q => q.eps_estimated.isSome) (sortQuarterly records) with
  | none => Except.ok none
  | some start_idx =>
    forward_loop ((sortQuarterly records).drop start_idx) 0 0 none

/-- Embeds compute_yearly_return from src/services/equity.rs lines 690-704. -/
noncomputable def compute_yearly_return (monthly_data : List MonthlyData)
    (year : Int) : Option ℝ :=
  if ((monthly_data.filter
        (fun d => d.month.startsWith (toString year ++ "-"))).map
      (fun d => d.total_return)).length = 12 then
    some (((monthly_data.filter
        (fun d => d.month.startsWith (toString year ++ "-"))).map
      (fun d => d.total_return)).foldl (fun acc r => acc * (1 + r)) 1 - 1)
  else none

/-- Embeds the total-return step of check_historical_updates
(src/services/equity.rs lines 644-649): the record is updated only when
compute_yearly_return produced a value. -/
noncomputable def applyYearlyReturn (monthly_data : List MonthlyData)
    (year : Int) (rec : HistoricalRecord) : HistoricalRecord :=
  match compute_yearly_return monthly_data year with
  | some yearly_return => { rec with total_return := yearly_return }
  | none => rec

/-- The quarter key format string used by check_historical_updates
(src/services/equity.rs lines 594 and 604). -/
def quarterKey (year : Int) (q : Nat) : String :=
  toString year ++ "Q" ++ toString q

/-- The accumulator of the quarter loop of check_historical_updates:
eps_sum, div_sum, have_complete_eps and have_complete_div. -/
structure QuarterSums where
  eps_sum : ℝ
  div_sum : ℝ
  have_complete_eps : Bool
  have_complete_div : Bool

/-- One iteration of the quarter loop of check_historical_updates
(src/services/equity.rs lines 603-617). -/
noncomputable def quarterStep (cache : MarketCache) (prev_year : Int)
    (acc : QuarterSums) (q : Nat) : QuarterSums :=
  let withEps :=
    match cache.eps_actual.lookup (quarterKey prev_year q) with
    | some eps => { acc with eps_sum := acc.eps_sum + eps }
    | none => { acc with have_complete_eps := false }
  match cache.quarterly_dividends.lookup (quarterKey prev_year q) with
  | some d => { withEps with div_sum := withEps.div_sum + d }
  | none => { withEps with have_complete_div := false }

/-- The full quarter loop for quarters 1 through 4. -/
noncomputable def check_quarter_sums (cache : MarketCache) (prev_year : Int) :
    QuarterSums :=
  [1, 2, 3, 4].foldl (quarterStep cache prev_year) ⟨0, 0, true, true⟩

/-- Embeds the EPS/dividend completion step of check_historical_updates
(src/services/equity.rs lines 593-630): guarded by Q4 data being present in
either map, each annual field is set exactly when its own four quarters are
complete. -/
noncomputable def check_historical_eps_div (cache : MarketCache)
    (prev_year : Int) (rec : HistoricalRecord) : HistoricalRecord :=
  if (cache.eps_actual.lookup (quarterKey prev_year 4)).isSome ||
      (cache.quarterly_dividends.lookup (quarterKey prev_year 4)).isSome then
    let s := check_quarter_sums cache prev_year
    let rec1 := if s.have_complete_eps then { rec with eps := s.eps_sum }
      else rec
    if s.have_complete_div then { rec1 with dividend := s.div_sum } else rec1
  else rec

/-- Embeds the 15-minute spot-price refresh block of get_market_data
(src/services/equity.rs lines 154-161). The fetch outcome is passed in as a
parameter; on success the price and its own timestamp are updated, on
failure the cache is left untouched. -/
noncomputable def refresh_spot_price (cache : MarketCache) (now : Int)
    (fetch : Except Unit ℝ) : MarketCache :=
  if cache.timestamps.yahoo_price < now - 15 then
    match fetch with
    | Except.ok price =>
      { cache with
        current_sp500_price := price
        timestamps := { cache.timestamps with yahoo_price := now } }
    | Except.error _ => cache
  else cache

/-- Embeds the inflation refresh block of get_inflation
(src/handlers/inflation.rs lines 29-52): when the hour-old cache is due, a
successful fetch overwrites the rate and its timestamp while a failed fetch
leaves the cache unchanged. -/
noncomputable def refresh_inflation (cache : MarketCache) (now : Int)
    (fetch : Except Unit ℝ) : MarketCache :=
  if cache.timestamps.bls_data < now - 60 then
    match fetch with
    | Except.ok rate =>
      { cache with
        inflation_rate := rate
        timestamps := { cache.timestamps with bls_data := now } }
    | Except.error _ => cache
  else cache

/-- Degenerate-input branch of calculate_cagr. -/
theorem calculate_cagr_of_nonpos {s e y : ℝ} (h : s ≤ 0 ∨ e ≤ 0 ∨ y ≤ 0) :
    calculate_cagr s e y = 0 := by
  simp only [calculate_cagr, if_pos h]

/-- Regular branch of calculate_cagr. -/
theorem calculate_cagr_of_pos {s e y : ℝ} (hs : 0 < s) (he : 0 < e)
    (hy : 0 < y) : calculate_cagr s e y = (e / s) ^ (1 / y) - 1 := by
  rw [calculate_cagr, if_neg]
  push_neg
  exact ⟨hs, he, hy⟩

/-- C10: calculate_cagr returns 0 whenever startValue, endValue or years is
nonpositive (so under the real-number idealization no NaN or infinity can
arise), otherwise returns (endValue/startValue)^(1/years) - 1, and in
particular returns 0 on equal positive endpoints. -/
theorem c10_calculate_cagr_policy (s e y : ℝ) :
    ((s ≤ 0 ∨ e ≤ 0 ∨ y ≤ 0) → calculate_cagr s e y = 0) ∧
    (0 < s → 0 < e → 0 < y →
      calculate_cagr s e y = (e / s) ^ (1 / y) - 1) ∧
    (0 < s → 0 < y → calculate_cagr s s y = 0) := by
  refine ⟨fun h => calculate_cagr_of_nonpos h,
    fun hs he hy => calculate_cagr_of_pos hs he hy, fun hs hy => ?_⟩
  rw [calculate_cagr_of_pos hs hs hy, div_self (ne_of_gt hs), Real.one_rpow]
  ring

/-- Witness for c10_calculate_cagr_policy at concrete inputs. -/
theorem c10_calculate_cagr_policy_witness :
    calculate_cagr (-1) 5 2 = 0 ∧
    calculate_cagr 4 8 1 = ((8 : ℝ) / 4) ^ ((1 : ℝ) / 1) - 1 ∧
    calculate_cagr 2 2 3 = 0 :=
  ⟨(c10_calculate_cagr_policy (-1) 5 2).1 (by norm_num),
   (c10_calculate_cagr_policy 4 8 1).2.1 (by norm_num) (by norm_num)
     (by norm_num),
   (c10_calculate_cagr_policy 2 2 3).2.2 (by norm_num) (by norm_num)⟩

/-- On a nonempty series whose exact ten-years-ago entry exists, the metrics
computation succeeds with the record spelled out. -/
theorem metricsOfSorted_ok (first : HistoricalRecord)
    (rest : List HistoricalRecord) (e : HistoricalRecord)
    (h : (first :: rest).find?
        (fun r => r.year == (rest.getLastD first).year - 10) = some e) :
    metricsOfSorted (first :: rest) = Except.ok
      { avg_dividend_yield := calculate_average
          (((first :: rest).filter
              (fun r => decide (0 < r.dividend_yield))).map
            (fun r => r.dividend_yield))
        past_inflation_cagr := calculate_cagr first.inflation
          (rest.getLastD first).inflation
          (((rest.getLastD first).year - first.year : ℤ) : ℝ)
        current_inflation_cagr := calculate_cagr e.inflation
          (rest.getLastD first).inflation 10
        past_earnings_cagr := calculate_cagr first.eps
          (rest.getLastD first).eps
          (((rest.getLastD first).year - first.year : ℤ) : ℝ)
        current_earnings_cagr := calculate_cagr e.eps
          (rest.getLastD first).eps 10
        past_cape_cagr := calculate_cagr first.cape
          (rest.getLastD first).cape
          (((rest.getLastD first).year - first.year : ℤ) : ℝ)
        current_cape_cagr := calculate_cagr e.cape
          (rest.getLastD first).cape 10
        past_returns_cagr := calculate_cagr first.cumulative_return
          (rest.getLastD first).cumulative_return
          (((rest.getLastD first).year - first.year : ℤ) : ℝ)
        current_returns_cagr := calculate_cagr e.cumulative_return
          (rest.getLastD first).cumulative_return 10 } := by
  simp only [metricsOfSorted]
  rw [h]

/-- On a nonempty series without an entry at exactly lastYear - 10, the
metrics computation fails. -/
theorem metricsOfSorted_err (first : HistoricalRecord)
    (rest : List HistoricalRecord)
    (h : (first :: rest).find?
        (fun r => r.year == (rest.getLastD first).year - 10) = none) :
    metricsOfSorted (first :: rest) = Except.error errNoTenYear := by
  simp only [metricsOfSorted]
  rw [h]

/-- C1 counterexample: the concrete series with years 2000 and 2011 has a
valid entry at or before 2001 = 2011 - 10, yet calculate_market_metrics
returns an error instead of computing the trailing CAGR from it (the code
demands an entry at exactly year 2001). -/
theorem c1_counterexample :
    calculate_market_metrics
        [⟨2000, 1, 1, 1, 1, 1, 1, 1, 1⟩, ⟨2011, 2, 2, 2, 2, 2, 2, 2, 2⟩] =
      Except.error errNoTenYear := by
  rfl

/-- C1 (amended): the trailing-10-year CAGR of each indicator is computed
from the first entry whose year equals lastYear - 10 exactly, over exactly
10 years and with no per-indicator validity filtering; if no entry with that
exact year exists, calculate_market_metrics returns an error rather than 0. -/
theorem c1_trailing_ten_year_exact (first : HistoricalRecord)
    (rest : List HistoricalRecord)
    (hl : List.Sorted (fun a b : HistoricalRecord => a.year ≤ b.year)
      (first :: rest)) :
    (∀ e, (first :: rest).find?
        (fun r => r.year == (rest.getLastD first).year - 10) = some e →
      (calculate_market_metrics (first :: rest)).map
          (fun m => (m.current_inflation_cagr, m.current_earnings_cagr,
            m.current_cape_cagr, m.current_returns_cagr)) =
        Except.ok
          (calculate_cagr e.inflation (rest.getLastD first).inflation 10,
           calculate_cagr e.eps (rest.getLastD first).eps 10,
           calculate_cagr e.cape (rest.getLastD first).cape 10,
           calculate_cagr e.cumulative_return
             (rest.getLastD first).cumulative_return 10)) ∧
    ((first :: rest).find?
        (fun r => r.year == (rest.getLastD first).year - 10) = none →
      calculate_market_metrics (first :: rest) = Except.error errNoTenYear) := by
  constructor
  · intro e he
    rw [calculate_market_metrics_of_sorted _ hl, metricsOfSorted_ok first rest e he]
    rfl
  · intro hn
    rw [calculate_market_metrics_of_sorted _ hl, metricsOfSorted_err first rest hn]

/-- Witness for c1_trailing_ten_year_exact on a two-entry series. -/
theorem c1_trailing_ten_year_exact_witness :
    (calculate_market_metrics
        [⟨2000, 1, 1, 1, 1, 1, 1, 1, 1⟩, ⟨2010, 2, 2, 2, 2, 2, 2, 2, 2⟩]).map
        (fun m => (m.current_inflation_cagr, m.current_earnings_cagr,
          m.current_cape_cagr, m.current_returns_cagr)) =
      Except.ok
        (calculate_cagr 1 2 10, calculate_cagr 1 2 10,
         calculate_cagr 1 2 10, calculate_cagr 1 2 10) :=
  (c1_trailing_ten_year_exact ⟨2000, 1, 1, 1, 1, 1, 1, 1, 1⟩
      [⟨2010, 2, 2, 2, 2, 2, 2, 2, 2⟩]
      (by simp [List.sorted_cons])).1
    ⟨2000, 1, 1, 1, 1, 1, 1, 1, 1⟩ (by rfl)

/-- C2 counterexample: a nonempty three-entry series (years 1990, 1995,
2011, all indicator values positive) on which calculate_market_metrics
nevertheless fails, because no entry sits at exactly year 2001. -/
theorem c2_counterexample :
    (calculate_market_metrics
        [⟨1990, 1, 1, 1, 1, 1, 1, 1, 1⟩, ⟨1995, 2, 2, 2, 2, 2, 2, 2, 2⟩,
         ⟨2011, 3, 3, 3, 3, 3, 3, 3, 3⟩]).isOk = false ∧
    ([⟨1990, 1, 1, 1, 1, 1, 1, 1, 1⟩, ⟨1995, 2, 2, 2, 2, 2, 2, 2, 2⟩,
      ⟨2011, 3, 3, 3, 3, 3, 3, 3, 3⟩] : List HistoricalRecord) ≠ [] := by
  exact ⟨rfl, by simp⟩

/-- C2 (amended): calculate_market_metrics fails on the empty series, and on
a nonempty year-sorted series it succeeds exactly when some entry sits at
exactly lastYear - 10; per-indicator degeneracies inside a successful call
resolve to 0 through calculate_cagr rather than failing the call. -/
theorem c2_error_iff :
    (calculate_market_metrics ([] : List HistoricalRecord)).isOk = false ∧
    ∀ (first : HistoricalRecord) (rest : List HistoricalRecord),
      List.Sorted (fun a b : HistoricalRecord => a.year ≤ b.year)
        (first :: rest) →
      (calculate_market_metrics (first :: rest)).isOk =
        ((first :: rest).find?
          (fun r => r.year == (rest.getLastD first).year - 10)).isSome := by
  refine ⟨rfl, fun first rest hl => ?_⟩
  rcases h : (first :: rest).find?
      (fun r => r.year == (rest.getLastD first).year - 10) with _ | e
  · rw [calculate_market_metrics_of_sorted _ hl,
      metricsOfSorted_err first rest h, h]
    rfl
  · rw [calculate_market_metrics_of_sorted _ hl,
      metricsOfSorted_ok first rest e h, h]
    rfl

/-- Witness for c2_error_iff on a two-entry series with a ten-year gap. -/
theorem c2_error_iff_witness :
    (calculate_market_metrics
        [⟨1991, 1, 1, 1, 1, 1, 1, 1, 1⟩, ⟨2001, 2, 2, 2, 2, 2, 2, 2, 2⟩]).isOk =
      (([⟨1991, 1, 1, 1, 1, 1, 1, 1, 1⟩, ⟨2001, 2, 2, 2, 2, 2, 2, 2, 2⟩] :
          List HistoricalRecord).find?
        (fun r => r.year ==
          (([⟨2001, 2, 2, 2, 2, 2, 2, 2, 2⟩] :
            List HistoricalRecord).getLastD
              ⟨1991, 1, 1, 1, 1, 1, 1, 1, 1⟩).year - 10)).isSome :=
  (c2_error_iff.2 ⟨1991, 1, 1, 1, 1, 1, 1, 1, 1⟩
    [⟨2001, 2, 2, 2, 2, 2, 2, 2, 2⟩] (by simp [List.sorted_cons]))

/-- C3 counterexample: on the series with years 2000, 2005, 2010 and
inflation values 0, 5, 10, the code computes a whole-period inflation CAGR
of 0 (it uses the first entry of the series, whose inflation is 0), while
the claim prescribes the CAGR between the first and last entries with
inflation strictly greater than 0, i.e. calculate_cagr 5 10 5, which is not 0. -/
theorem c3_counterexample :
    (calculate_market_metrics
        [⟨2000, 1, 1, 1, 1, 1, 0, 1, 1⟩, ⟨2005, 1, 1, 1, 1, 1, 5, 1, 1⟩,
         ⟨2010, 1, 1, 1, 1, 1, 10, 1, 1⟩]).map
        (fun m => m.past_inflation_cagr) = Except.ok 0 ∧
    calculate_cagr 5 10 5 ≠ 0 := by
  constructor
  · rw [calculate_market_metrics_of_sorted _ (by simp [List.sorted_cons]),
      metricsOfSorted_ok _ _ ⟨2000, 1, 1, 1, 1, 1, 0, 1, 1⟩ (by rfl)]
    simp only [Except.map]
    rw [calculate_cagr_of_nonpos (Or.inl (by norm_num))]
  · rw [calculate_cagr_of_pos (by norm_num : (0 : ℝ) < 5)
      (by norm_num : (0 : ℝ) < 10) (by norm_num : (0 : ℝ) < 5)]
    have h2 : (1 : ℝ) < ((10 : ℝ) / 5) ^ ((1 : ℝ) / 5) := by
      rw [show ((10 : ℝ) / 5) = 2 by norm_num]
      rw [Real.one_lt_rpow_iff_of_pos (by norm_num)]
      left
      constructor <;> norm_num
    exact sub_ne_zero.mpr (ne_of_gt h2)

/-- C3 (amended): for each indicator, the whole-period CAGR is taken between
the first and last entries of the year-sorted series with no filtering on
the indicator being positive, over (lastYear - firstYear) years; a
nonpositive endpoint makes that CAGR 0 through calculate_cagr without
failing the call (the call itself succeeds whenever the exact ten-years-ago
entry exists). -/
theorem c3_whole_period_cagr (first : HistoricalRecord)
    (rest : List HistoricalRecord) (e : HistoricalRecord)
    (hl : List.Sorted (fun a b : HistoricalRecord => a.year ≤ b.year)
      (first :: rest))
    (he : (first :: rest).find?
        (fun r => r.year == (rest.getLastD first).year - 10) = some e) :
    (calculate_market_metrics (first :: rest)).map
        (fun m => (m.past_inflation_cagr, m.past_earnings_cagr,
          m.past_cape_cagr, m.past_returns_cagr)) =
      Except.ok
        (calculate_cagr first.inflation (rest.getLastD first).inflation
           (((rest.getLastD first).year - first.year : ℤ) : ℝ),
         calculate_cagr first.eps (rest.getLastD first).eps
           (((rest.getLastD first).year - first.year : ℤ) : ℝ),
         calculate_cagr first.cape (rest.getLastD first).cape
           (((rest.getLastD first).year - first.year : ℤ) : ℝ),
         calculate_cagr first.cumulative_return
           (rest.getLastD first).cumulative_return
           (((rest.getLastD first).year - first.year : ℤ) : ℝ)) ∧
    (first.inflation ≤ 0 →
      (calculate_market_metrics (first :: rest)).map
        (fun m => m.past_inflation_cagr) = Except.ok 0) := by
  constructor
  · rw [calculate_market_metrics_of_sorted _ hl,
      metricsOfSorted_ok first rest e he]
    rfl
  · intro hz
    rw [calculate_market_metrics_of_sorted _ hl,
      metricsOfSorted_ok first rest e he]
    simp only [Except.map]
    rw [calculate_cagr_of_nonpos (Or.inl hz)]

/-- Witness for c3_whole_period_cagr on a two-entry series with first
inflation 0. -/
theorem c3_whole_period_cagr_witness :
    (calculate_market_metrics
        [⟨1998, 1, 1, 1, 1, 1, 0, 1, 1⟩, ⟨2008, 2, 2, 2, 2, 2, 2, 2, 2⟩]).map
      (fun m => m.past_inflation_cagr) = Except.ok 0 :=
  (c3_whole_period_cagr ⟨1998, 1, 1, 1, 1, 1, 0, 1, 1⟩
      [⟨2008, 2, 2, 2, 2, 2, 2, 2, 2⟩] ⟨1998, 1, 1, 1, 1, 1, 0, 1, 1⟩
      (by simp [List.sorted_cons]) (by rfl)).2 (by norm_num)

/-- When fewer than 4 - quarters_found non-null dividends remain, the TTM
loop comes up empty. -/
theorem ttm_loop_none (l : List QuarterlyData) :
    ∀ (found : Nat) (sum : ℝ) (fq : Option String), found < 4 →
      (l.filterMap (fun x => x.dividend)).length + found < 4 →
      ttm_loop l found sum fq = none := by
  induction l with
  | nil =>
    intro found sum fq h4 _
    simp [ttm_loop, Nat.ne_of_lt h4]
  | cons r rest ih =>
    intro found sum fq h4 hcount
    rcases hd : r.dividend with _ | d
    · simp only [ttm_loop, hd]
      exact ih found sum fq h4 (by simpa [List.filterMap_cons, hd] using hcount)
    · simp only [ttm_loop, hd]
      simp only [List.filterMap_cons, hd, List.length_cons] at hcount
      rw [if_neg (by omega)]
      exact ih (found + 1) (sum + d) _ (by omega) (by omega)

/-- Once the final quarter has been recorded, the TTM loop returns it with
the sum of the next 4 - quarters_found non-null dividends. -/
theorem ttm_loop_run (l : List QuarterlyData) :
    ∀ (found : Nat) (sum : ℝ) (q : String), 1 ≤ found → found < 4 →
      4 - found ≤ (l.filterMap (fun x => x.dividend)).length →
      ttm_loop l found sum (some q) =
        some ⟨q, sum + ((l.filterMap (fun x => x.dividend)).take (4 - found)).sum⟩ := by
  induction l with
  | nil =>
    intro found sum q h1 h4 hlen
    simp only [List.filterMap_nil, List.length_nil] at hlen
    omega
  | cons r rest ih =>
    intro found sum q h1 h4 hlen
    rcases hd : r.dividend with _ | d
    · simp only [ttm_loop, hd]
      rw [ih found sum q h1 h4 (by simpa [List.filterMap_cons, hd] using hlen)]
      simp [List.filterMap_cons, hd]
    · simp only [ttm_loop, hd]
      simp only [List.filterMap_cons, hd, List.length_cons] at hlen
      by_cases hf : found + 1 = 4
      · rw [if_pos hf]
        rw [if_neg (by omega : ¬ found = 0)]
        have h34 : 4 - found = 1 := by omega
        simp [List.filterMap_cons, hd, h34]
      · rw [if_neg hf]
        rw [if_neg (by omega : ¬ found = 0)]
        rw [ih (found + 1) (sum + d) q (by omega) (by omega) (by omega)]
        have hstep : 4 - found = (4 - (found + 1)) + 1 := by omega
        simp only [List.filterMap_cons, hd, hstep, List.take_succ_cons,
          List.sum_cons]
        congr 1
        ring_nf

/-- Full characterization of the TTM walk from its start state: it reports
the quarter of the first record carrying a dividend, i.e. the most recent
one in the descending traversal, with the sum of the first four dividends. -/
theorem ttm_loop_top (l : List QuarterlyData) :
    ∀ (e : QuarterlyData), l.find? (fun x => x.dividend.isSome) = some e →
      4 ≤ (l.filterMap (fun x => x.dividend)).length →
      ttm_loop l 0 0 none =
        some ⟨e.quarter, ((l.filterMap (fun x => x.dividend)).take 4).sum⟩ := by
  induction l with
  | nil =>
    intro e he _
    simp [List.find?] at he
  | cons r rest ih =>
    intro e he hlen
    rcases hd : r.dividend with _ | d
    · rw [List.find?_cons_of_neg _ (by simp [hd])] at he
      simp only [ttm_loop, hd]
      rw [ih e he (by simpa [List.filterMap_cons, hd] using hlen)]
      simp [List.filterMap_cons, hd]
    · rw [List.find?_cons_of_pos _ (by simp [hd])] at he
      injection he with he'
      subst he'
      simp only [ttm_loop, hd]
      rw [if_neg (by omega : ¬ (0 : Nat) + 1 = 4)]
      simp only [if_true, eq_self_iff_true]
      simp only [List.filterMap_cons, hd, List.length_cons] at hlen
      rw [ttm_loop_run rest (0 + 1) (0 + d) r.quarter (by omega) (by omega)
        (by simp only [show (4 : Nat) - (0 + 1) = 3 from rfl]; omega)]
      simp only [List.filterMap_cons, hd,
        show (4 : Nat) - (0 + 1) = 3 from rfl,
        show (4 : Nat) = 3 + 1 from rfl, List.take_succ_cons, List.sum_cons,
        Option.some.injEq, QuarterlyValue.mk.injEq, true_and]
      ring_nf

/-- Counting non-null dividends through filterMap or filter agrees. -/
theorem filterMap_dividend_length (l : List QuarterlyData) :
    (l.filterMap (fun x => x.dividend)).length =
      (l.filter (fun x => x.dividend.isSome)).length := by
  induction l with
  | nil => rfl
  | cons r rest ih =>
    rcases hd : r.dividend with _ | d <;>
      simp [List.filterMap_cons, List.filter_cons, hd, ih]

/-- Sorting and reversing do not change the number of non-null dividends. -/
theorem count_dividends_sort_reverse (records : List QuarterlyData) :
    ((sortQuarterly records).reverse.filter
        (fun x => x.dividend.isSome)).length =
      (records.filter (fun x => x.dividend.isSome)).length := by
  have hperm : (sortQuarterly records).reverse.Perm records :=
    (sortQuarterly records).reverse_perm.trans
      (List.perm_insertionSort quarterLE records)
  rw [← List.countP_eq_length_filter, ← List.countP_eq_length_filter]
  exact hperm.countP_eq _

/-- C4 counterexample: on the four complete quarters of 2023, the TTM
dividend computation reports 2023Q4 (the most recent quarter included) as
its quarter label, not 2023Q1, the 4th and oldest quarter included as the
claim states. -/
theorem c4_counterexample :
    (get_ttm_dividend
        [⟨"2023Q1", some 1, none, none⟩, ⟨"2023Q2", some 1, none, none⟩,
         ⟨"2023Q3", some 1, none, none⟩, ⟨"2023Q4", some 1, none, none⟩]).map
        (fun v => v.final_quarter) = some "2023Q4" ∧
    ("2023Q4" : String) ≠ "2023Q1" := by
  exact ⟨by decide, by decide⟩

/-- C4 (amended): get_ttm_dividend returns none when fewer than 4 records
have a non-null dividend; otherwise it returns the sum of the dividends of
the 4 most recent non-null-dividend quarters with the MOST RECENT (first in
the descending walk) such quarter reported as the quarter label. -/
theorem c4_ttm_dividend (records : List QuarterlyData) :
    ((records.filter (fun x => x.dividend.isSome)).length < 4 →
      get_ttm_dividend records = none) ∧
    (∀ e, (sortQuarterly records).reverse.find?
        (fun x => x.dividend.isSome) = some e →
      4 ≤ (records.filter (fun x => x.dividend.isSome)).length →
      get_ttm_dividend records =
        some ⟨e.quarter,
          (((sortQuarterly records).reverse.filterMap
            (fun x => x.dividend)).take 4).sum⟩) := by
  have hc : ((sortQuarterly records).reverse.filterMap
      (fun x => x.dividend)).length =
      (records.filter (fun x => x.dividend.isSome)).length := by
    rw [filterMap_dividend_length]
    exact count_dividends_sort_reverse records
  constructor
  · intro h
    exact ttm_loop_none _ 0 0 none (by omega) (by omega)
  · intro e he hlen
    exact ttm_loop_top _ e he (by omega)

/-- Witness for c4_ttm_dividend: a single-quarter series yields none, and a
complete 2022 series yields the newest quarter with all four dividends
summed. -/
theorem c4_ttm_dividend_witness :
    get_ttm_dividend [⟨"2024Q1", some 1, none, none⟩] = none ∧
    get_ttm_dividend
        [⟨"2022Q1", some 1, none, none⟩, ⟨"2022Q2", some 2, none, none⟩,
         ⟨"2022Q3", some 3, none, none⟩, ⟨"2022Q4", some 4, none, none⟩] =
      some ⟨"2022Q4",
        (((sortQuarterly
            [⟨"2022Q1", some 1, none, none⟩, ⟨"2022Q2", some 2, none, none⟩,
             ⟨"2022Q3", some 3, none, none⟩,
             ⟨"2022Q4", some 4, none, none⟩]).reverse.filterMap
          (fun x => x.dividend)).take 4).sum⟩ :=
  ⟨(c4_ttm_dividend [⟨"2024Q1", some 1, none, none⟩]).1 (by decide),
   (c4_ttm_dividend _).2 ⟨"2022Q4", some 4, none, none⟩ (by rfl) (by decide)⟩

/-- Once four estimates have been accumulated the loop exits immediately,
returning the recorded final quarter and sum. -/
theorem forward_loop_exit (l : List QuarterlyData) (sum : ℝ)
    (fq : Option String) :
    forward_loop l 4 sum fq = Except.ok (some ⟨fq.getD "", sum⟩) := by
  cases l with
  | nil => simp [forward_loop]
  | cons q rest => simp [forward_loop]

/-- Loop step: a gap (missing estimate) before four estimates are in hand
ends the whole computation with none. -/
theorem forward_loop_gap (q : QuarterlyData) (l : List QuarterlyData)
    (found : Nat) (sum : ℝ) (fq : Option String)
    (h4 : found < 4) (he : q.eps_estimated = none) :
    forward_loop (q :: l) found sum fq = Except.ok none := by
  rw [forward_loop, if_pos h4]
  simp only [he]

/-- Loop step: a later estimate (quarters_found nonzero) accumulates and
keeps the recorded final quarter. -/
theorem forward_loop_step (q : QuarterlyData) (l : List QuarterlyData)
    (found : Nat) (sum : ℝ) (fq : Option String) (eps : ℝ)
    (h4 : found < 4) (h0 : found ≠ 0) (he : q.eps_estimated = some eps) :
    forward_loop (q :: l) found sum fq =
      forward_loop l (found + 1) (sum + eps) fq := by
  rw [forward_loop, if_pos h4]
  simp only [he]
  rw [if_neg h0]

/-- Loop step: the first estimate records the quarter three positions
further on when it exists. -/
theorem forward_loop_first (q : QuarterlyData) (l : List QuarterlyData)
    (sum : ℝ) (fq : Option String) (eps : ℝ) (r3 : QuarterlyData)
    (he : q.eps_estimated = some eps) (h3 : (q :: l).get? 3 = some r3) :
    forward_loop (q :: l) 0 sum fq =
      forward_loop l 1 (sum + eps) (some r3.quarter) := by
  rw [forward_loop, if_pos (by omega : (0 : Nat) < 4)]
  simp only [he]
  rw [if_pos trivial, h3]

/-- Loop step: the first estimate panics when index 3 from it is out of
bounds. -/
theorem forward_loop_first_oob (q : QuarterlyData) (l : List QuarterlyData)
    (sum : ℝ) (fq : Option String) (eps : ℝ)
    (he : q.eps_estimated = some eps) (h3 : (q :: l).get? 3 = none) :
    forward_loop (q :: l) 0 sum fq = Except.error () := by
  rw [forward_loop, if_pos (by omega : (0 : Nat) < 4)]
  simp only [he]
  rw [if_pos trivial, h3]

/-- C6: whenever the earliest record carrying a non-null EPS estimate sits
at one of the last three positions of the year-sorted list (fewer than
three records after it), the computation evaluates the list index
start_idx + 3, which lies past the end of the list, so the out-of-bounds
panic branch is reached instead of the operation totally returning none. -/
theorem c6_forward_eps_panic (records : List QuarterlyData) (start : Nat)
    (q0 : QuarterlyData) (rest : List QuarterlyData) (e0 : ℝ)
    (hpos : position (fun q => q.eps_estimated.isSome) (sortQuarterly records)
      = some start)
    (hdrop : (sortQuarterly records).drop start = q0 :: rest)
    (hq0 : q0.eps_estimated = some e0)
    (hshort : rest.length < 3) :
    estimated_eps_sum records = Except.error () := by
  have hoob : (q0 :: rest).get? 3 = none := by
    rw [List.get?_eq_none]
    simp only [List.length_cons]
    omega
  unfold estimated_eps_sum
  rw [hpos]
  simp only
  rw [hdrop, forward_loop_first_oob q0 rest 0 none e0 hq0 hoob]

/-- Witness for c6_forward_eps_panic: the earliest estimate sits at the last
of two positions, so the computation panics. -/
theorem c6_forward_eps_panic_witness :
    estimated_eps_sum
        [⟨"2023Q1", none, none, none⟩, ⟨"2023Q2", none, none, some 3⟩] =
      Except.error () :=
  c6_forward_eps_panic
    [⟨"2023Q1", none, none, none⟩, ⟨"2023Q2", none, none, some 3⟩] 1
    ⟨"2023Q2", none, none, some 3⟩ [] 3 (by rfl) (by rfl) (by rfl)
    (by decide)

/-- C5: with the earliest non-null EPS estimate at position start and at
least three further records after it, a gap among the next three quarters
makes the forward sum none (even when other estimates exist later), while
four consecutive estimates produce their sum labelled with the 4th quarter. -/
theorem c5_forward_eps_consecutive (records : List QuarterlyData)
    (start : Nat) (q0 q1 q2 q3 : QuarterlyData) (rest : List QuarterlyData)
    (e0 : ℝ)
    (hpos : position (fun q => q.eps_estimated.isSome) (sortQuarterly records)
      = some start)
    (hdrop : (sortQuarterly records).drop start = q0 :: q1 :: q2 :: q3 :: rest)
    (hq0 : q0.eps_estimated = some e0) :
    ((q1.eps_estimated.isSome && q2.eps_estimated.isSome &&
        q3.eps_estimated.isSome) = false →
      estimated_eps_sum records = Except.ok none) ∧
    (∀ e1 e2 e3, q1.eps_estimated = some e1 → q2.eps_estimated = some e2 →
      q3.eps_estimated = some e3 →
      estimated_eps_sum records =
        Except.ok (some ⟨q3.quarter, 0 + e0 + e1 + e2 + e3⟩)) := by
  have h3some : (q0 :: q1 :: q2 :: q3 :: rest).get? 3 = some q3 := by rfl
  have hstart : estimated_eps_sum records =
      forward_loop (q1 :: q2 :: q3 :: rest) 1 (0 + e0) (some q3.quarter) := by
    unfold estimated_eps_sum
    rw [hpos]
    simp only
    rw [hdrop, forward_loop_first q0 _ 0 none e0 q3 hq0 h3some]
  constructor
  · intro hgap
    rw [hstart]
    rcases h1 : q1.eps_estimated with _ | e1
    · exact forward_loop_gap q1 _ 1 _ _ (by omega) h1
    · rcases h2 : q2.eps_estimated with _ | e2
      · rw [forward_loop_step q1 _ 1 _ _ e1 (by omega) (by omega) h1]
        exact forward_loop_gap q2 _ 2 _ _ (by omega) h2
      · rcases h3 : q3.eps_estimated with _ | e3
        · rw [forward_loop_step q1 _ 1 _ _ e1 (by omega) (by omega) h1,
            forward_loop_step q2 _ 2 _ _ e2 (by omega) (by omega) h2]
          exact forward_loop_gap q3 _ 3 _ _ (by omega) h3
        · exfalso
          rw [h1, h2, h3] at hgap
          simp at hgap
  · intro e1 e2 e3 h1 h2 h3
    rw [hstart,
      forward_loop_step q1 _ 1 _ _ e1 (by omega) (by omega) h1,
      forward_loop_step q2 _ 2 _ _ e2 (by omega) (by omega) h2,
      forward_loop_step q3 _ 3 _ _ e3 (by omega) (by omega) h3,
      forward_loop_exit]
    rfl

/-- Witness for c5_forward_eps_consecutive: a broken run returns none even
though four non-consecutive estimates exist, and a complete run of 2024
estimates sums them under the 4th quarter label. -/
theorem c5_forward_eps_consecutive_witness :
    estimated_eps_sum
        [⟨"2023Q1", none, none, some 1⟩, ⟨"2023Q2", none, none, none⟩,
         ⟨"2023Q3", none, none, some 2⟩, ⟨"2023Q4", none, none, some 3⟩,
         ⟨"2024Q1", none, none, some 4⟩] = Except.ok none ∧
    estimated_eps_sum
        [⟨"2024Q1", none, none, some 1⟩, ⟨"2024Q2", none, none, some 2⟩,
         ⟨"2024Q3", none, none, some 3⟩, ⟨"2024Q4", none, none, some 4⟩] =
      Except.ok (some ⟨"2024Q4", 0 + 1 + 2 + 3 + 4⟩) :=
  ⟨(c5_forward_eps_consecutive
      [⟨"2023Q1", none, none, some 1⟩, ⟨"2023Q2", none, none, none⟩,
       ⟨"2023Q3", none, none, some 2⟩, ⟨"2023Q4", none, none, some 3⟩,
       ⟨"2024Q1", none, none, some 4⟩] 0 ⟨"2023Q1", none, none, some 1⟩
      ⟨"2023Q2", none, none, none⟩ ⟨"2023Q3", none, none, some 2⟩
      ⟨"2023Q4", none, none, some 3⟩ [⟨"2024Q1", none, none, some 4⟩] 1
      (by rfl) (by rfl) (by rfl)).1 (by rfl),
   (c5_forward_eps_consecutive
      [⟨"2024Q1", none, none, some 1⟩, ⟨"2024Q2", none, none, some 2⟩,
       ⟨"2024Q3", none, none, some 3⟩, ⟨"2024Q4", none, none, some 4⟩] 0
      ⟨"2024Q1", none, none, some 1⟩ ⟨"2024Q2", none, none, some 2⟩
      ⟨"2024Q3", none, none, some 3⟩ ⟨"2024Q4", none, none, some 4⟩ [] 1
      (by rfl) (by rfl) (by rfl)).2 2 3 4 (by rfl) (by rfl) (by rfl)⟩

/-- The compounding fold of compute_yearly_return equals the product of
(1 + r) over the same returns. -/
theorem foldl_one_add_prod (l : List ℝ) :
    l.foldl (fun acc r => acc * (1 + r)) 1 = (l.map (fun r => 1 + r)).prod := by
  rw [List.prod_eq_foldl, List.foldl_map]

/-- C7: the Annual Backfill Engine sets the annual total return to the
product of (1 + monthlyReturn) over the records of the year minus 1 exactly
when the number of monthly records whose key starts with the year prefix is
12, and leaves the record unchanged for any other count. -/
theorem c7_annual_total_return (monthly_data : List MonthlyData) (year : Int)
    (rec : HistoricalRecord) :
    applyYearlyReturn monthly_data year rec =
      if (monthly_data.filter
          (fun d => d.month.startsWith (toString year ++ "-"))).length = 12 then
        { rec with total_return :=
            ((monthly_data.filter
                (fun d => d.month.startsWith (toString year ++ "-"))).map
              (fun d => 1 + d.total_return)).prod - 1 }
      else rec := by
  have hFP : ((monthly_data.filter
        (fun d => d.month.startsWith (toString year ++ "-"))).map
      (fun d => d.total_return)).foldl (fun acc r => acc * (1 + r)) 1 =
      ((monthly_data.filter
          (fun d => d.month.startsWith (toString year ++ "-"))).map
        (fun d => 1 + d.total_return)).prod := by
    rw [foldl_one_add_prod, List.map_map]
    rfl
  unfold applyYearlyReturn compute_yearly_return
  rw [List.length_map, hFP]
  by_cases h : (monthly_data.filter
      (fun d => d.month.startsWith (toString year ++ "-"))).length = 12
  · rw [if_pos h, if_pos h]
  · rw [if_neg h, if_neg h]

/-- Field accounting for the quarter loop of check_historical_updates over
an arbitrary quarter list: sums accumulate the present values and each
completeness flag records whether every lookup succeeded. -/
theorem check_quarter_sums_foldl (cache : MarketCache) (py : Int)
    (qs : List Nat) :
    ∀ acc : QuarterSums,
      (qs.foldl (quarterStep cache py) acc).eps_sum =
        acc.eps_sum + (qs.map
          (fun q => (cache.eps_actual.lookup (quarterKey py q)).getD 0)).sum ∧
      (qs.foldl (quarterStep cache py) acc).div_sum =
        acc.div_sum + (qs.map
          (fun q => (cache.quarterly_dividends.lookup
            (quarterKey py q)).getD 0)).sum ∧
      (qs.foldl (quarterStep cache py) acc).have_complete_eps =
        (acc.have_complete_eps && qs.all
          (fun q => (cache.eps_actual.lookup (quarterKey py q)).isSome)) ∧
      (qs.foldl (quarterStep cache py) acc).have_complete_div =
        (acc.have_complete_div && qs.all
          (fun q => (cache.quarterly_dividends.lookup
            (quarterKey py q)).isSome)) := by
  induction qs with
  | nil => intro acc; simp
  | cons q rest ih =>
    intro acc
    obtain ⟨h1, h2, h3, h4⟩ := ih (quarterStep cache py acc q)
    simp only [List.foldl_cons, List.map_cons, List.sum_cons, List.all_cons]
    rw [h1, h2, h3, h4]
    rcases he : cache.eps_actual.lookup (quarterKey py q) with _ | ve <;>
      rcases hd : cache.quarterly_dividends.lookup (quarterKey py q)
        with _ | vd <;>
      (simp [quarterStep, he, hd, Bool.and_assoc]; try ring_nf; try simp)

/-- C8: for every cache state, the annual EPS is set to the sum of the four
quarterly EPS-actual values exactly when all four quarters of the previous
year have one, and independently the annual dividend is set to the sum of
the four quarterly dividends exactly when all four quarters have one; each
field is gated only on its own completeness, so one field being incomplete
never blocks the other from being set. -/
theorem c8_eps_div_independent (cache : MarketCache) (py : Int)
    (rec : HistoricalRecord) :
    (check_historical_eps_div cache py rec).eps =
      (if ([1, 2, 3, 4].all
          (fun q => (cache.eps_actual.lookup (quarterKey py q)).isSome)) = true
        then ([1, 2, 3, 4].map
          (fun q => (cache.eps_actual.lookup (quarterKey py q)).getD 0)).sum
        else rec.eps) ∧
    (check_historical_eps_div cache py rec).dividend =
      (if ([1, 2, 3, 4].all
          (fun q => (cache.quarterly_dividends.lookup
            (quarterKey py q)).isSome)) = true
        then ([1, 2, 3, 4].map
          (fun q => (cache.quarterly_dividends.lookup
            (quarterKey py q)).getD 0)).sum
        else rec.dividend) := by
  obtain ⟨h1, h2, h3, h4⟩ :=
    check_quarter_sums_foldl cache py [1, 2, 3, 4] ⟨0, 0, true, true⟩
  have hE : (check_quarter_sums cache py).have_complete_eps =
      [1, 2, 3, 4].all
        (fun q => (cache.eps_actual.lookup (quarterKey py q)).isSome) := by
    rw [check_quarter_sums, h3, Bool.true_and]
  have hD : (check_quarter_sums cache py).have_complete_div =
      [1, 2, 3, 4].all
        (fun q => (cache.quarterly_dividends.lookup
          (quarterKey py q)).isSome) := by
    rw [check_quarter_sums, h4, Bool.true_and]
  have hSE : (check_quarter_sums cache py).eps_sum =
      ([1, 2, 3, 4].map
        (fun q => (cache.eps_actual.lookup (quarterKey py q)).getD 0)).sum := by
    rw [check_quarter_sums, h1, zero_add]
  have hSD : (check_quarter_sums cache py).div_sum =
      ([1, 2, 3, 4].map
        (fun q => (cache.quarterly_dividends.lookup
          (quarterKey py q)).getD 0)).sum := by
    rw [check_quarter_sums, h2, zero_add]
  constructor
  · by_cases hAe : ([1, 2, 3, 4].all
        (fun q => (cache.eps_actual.lookup (quarterKey py q)).isSome)) = true
    · have hk4 : (cache.eps_actual.lookup (quarterKey py 4)).isSome = true :=
        List.all_eq_true.mp hAe 4 (by decide)
      rw [if_pos hAe]
      simp only [check_historical_eps_div, hk4, Bool.true_or, if_true]
      rcases hdb : (check_quarter_sums cache py).have_complete_div <;>
        simp [hdb, hE, hAe, hSE]
    · rw [if_neg hAe]
      by_cases hg : ((cache.eps_actual.lookup (quarterKey py 4)).isSome ||
          (cache.quarterly_dividends.lookup (quarterKey py 4)).isSome) = true
      · simp only [check_historical_eps_div, hg, if_true]
        rcases hdb : (check_quarter_sums cache py).have_complete_div <;>
          simp [hdb, hE, hAe]
      · simp only [check_historical_eps_div]
        rw [if_neg hg]
  · by_cases hAd : ([1, 2, 3, 4].all
        (fun q => (cache.quarterly_dividends.lookup
          (quarterKey py q)).isSome)) = true
    · have hk4 : (cache.quarterly_dividends.lookup
          (quarterKey py 4)).isSome = true :=
        List.all_eq_true.mp hAd 4 (by decide)
      rw [if_pos hAd]
      simp only [check_historical_eps_div, hk4, Bool.or_true, if_true]
      rcases heb : (check_quarter_sums cache py).have_complete_eps <;>
        simp [heb, hD, hAd, hSD]
    · rw [if_neg hAd]
      by_cases hg : ((cache.eps_actual.lookup (quarterKey py 4)).isSome ||
          (cache.quarterly_dividends.lookup (quarterKey py 4)).isSome) = true
      · simp only [check_historical_eps_div, hg, if_true]
        rcases heb : (check_quarter_sums cache py).have_complete_eps <;>
          simp [heb, hD, hAd]
      · simp only [check_historical_eps_div]
        rw [if_neg hg]

/-- C9: a failed fetch for one source leaves that source's cached value and
its last-success timestamp exactly as they were and does not prevent the
other source's refresh: with the spot price due, a successful spot fetch and
a failed inflation fetch yield a cache with the new price and price
timestamp but the pre-cycle inflation rate and inflation timestamp. -/
theorem c9_per_source_failure (cache : MarketCache) (now : Int) (p : ℝ) :
    refresh_spot_price cache now (Except.error ()) = cache ∧
    refresh_inflation cache now (Except.error ()) = cache ∧
    (cache.timestamps.yahoo_price < now - 15 →
      (refresh_inflation (refresh_spot_price cache now (Except.ok p)) now
          (Except.error ())).current_sp500_price = p ∧
      (refresh_inflation (refresh_spot_price cache now (Except.ok p)) now
          (Except.error ())).timestamps.yahoo_price = now ∧
      (refresh_inflation (refresh_spot_price cache now (Except.ok p)) now
          (Except.error ())).inflation_rate = cache.inflation_rate ∧
      (refresh_inflation (refresh_spot_price cache now (Except.ok p)) now
          (Except.error ())).timestamps.bls_data =
        cache.timestamps.bls_data) := by
  have hspot_err : refresh_spot_price cache now (Except.error ()) = cache := by
    unfold refresh_spot_price
    split <;> rfl
  have hinfl_err : ∀ c : MarketCache,
      refresh_inflation c now (Except.error ()) = c := by
    intro c
    unfold refresh_inflation
    split <;> rfl
  refine ⟨hspot_err, hinfl_err cache, fun hdue => ?_⟩
  rw [hinfl_err]
  unfold refresh_spot_price
  rw [if_pos hdue]
  exact ⟨rfl, rfl, rfl, rfl⟩

/-- Witness for c9_per_source_failure on a concrete stale cache. -/
theorem c9_per_source_failure_witness :
    (refresh_inflation
        (refresh_spot_price
          ⟨⟨0, 0, 0, 0⟩, 1, 2, [], [], [], 3, "", 4, 5, 6, 7⟩ 100
          (Except.ok 9)) 100 (Except.error ())).current_sp500_price = 9 ∧
    (refresh_inflation
        (refresh_spot_price
          ⟨⟨0, 0, 0, 0⟩, 1, 2, [], [], [], 3, "", 4, 5, 6, 7⟩ 100
          (Except.ok 9)) 100 (Except.error ())).inflation_rate = 7 ∧
    (refresh_inflation
        (refresh_spot_price
          ⟨⟨0, 0, 0, 0⟩, 1, 2, [], [], [], 3, "", 4, 5, 6, 7⟩ 100
          (Except.ok 9)) 100 (Except.error ())).timestamps.bls_data = 0 := by
  obtain ⟨-, -, h⟩ := c9_per_source_failure
    ⟨⟨0, 0, 0, 0⟩, 1, 2, [], [], [], 3, "", 4, 5, 6, 7⟩ 100 9
  obtain ⟨hp, -, hr, hb⟩ := h (by norm_num)
  exact ⟨hp, hr, hb⟩

end MacroDash
